import Mathlib

/-!
Verification of the Focus Tracker log/statistics layer and session loop.

This file gives a shallow embedding of `src/focus.py` and proves (or
refutes) the testable properties stated in the specification.

Modelling conventions:
* A CSV day-log file is `Option (List Row)`: `none` when the file does not
  exist, `some rows` for a file whose header row is present followed by
  `rows` (the header itself is a fixed constant and is left implicit).
* Wall-clock instants are rationals, measured in seconds.
* Python exceptions are modelled with `Except String`.
* `float(s)` parsing is modelled by an explicit `String → Option ℚ`
  parameter `parse` wherever a theorem can be proved for every parser;
  the concrete `parseRat` below covers the decimal forms the program
  itself writes and is used for concrete evaluations.
-/

namespace FocusTracker

/-- One record of a day log: the five CSV columns
`Task, Start Time, End Time, Duration (minutes), Status`. -/
structure Row where
  task : String
  startTime : String
  endTime : String
  duration : String
  status : String
deriving Repr, DecidableEq

instance : Inhabited Row := ⟨⟨"", "", "", "", ""⟩⟩

/-- Two-digit zero padding, as in `strftime` fields. -/
def pad2 (n : Nat) : String :=
  if n < 10 then "0" ++ toString n else toString n

/-- `strftime("%H:%M:%S")` on an instant given in seconds. -/
def timeStr (t : ℚ) : String :=
  let s : Nat := (⌊t⌋).toNat % 86400
  pad2 (s / 3600) ++ ":" ++ pad2 (s % 3600 / 60) ++ ":" ++ pad2 (s % 60)

/-- Left-pad a digit string with zeros to width `w`. -/
def padZeros (w : Nat) (s : String) : String :=
  if s.length < w then String.mk (List.replicate (w - s.length) '0') ++ s else s

/-- Fixed-point decimal formatting with `prec` fractional digits,
modelling a Python format such as `.2f` (rounding to nearest). -/
def fmtFixed (prec : Nat) (q : ℚ) : String :=
  let sign := if q < 0 then "-" else ""
  let n : Nat := (⌊|q| * (10 : ℚ) ^ prec + 1 / 2⌋).toNat
  sign ++ toString (n / 10 ^ prec) ++ "." ++ padZeros prec (toString (n % 10 ^ prec))

/-- The duration cell written by `log_task`: Python's
`f"{duration:.2f}" if duration else ""`.  `duration` is `None` (no end
time) or a float; the truthiness test is false both for `None` and for
`0.0`, so a zero duration prints as the empty string. -/
def durationField (dur : Option ℚ) : String :=
  match dur with
  | none => ""
  | some d => if d = 0 then "" else fmtFixed 2 d

/-- `update_task_status(task_name, new_status)` (src/focus.py:112-134):
reads today's log, sets `new_status` on every row whose `Task` equals
`task_name` and whose `Status` is `Abandoned` or `In Progress`, writes the
file back, and returns `True`; with no log file it returns `False`.
Result: (returned boolean, resulting file). -/
def update_task_status (taskName newStatus : String) (file : Option (List Row)) :
    Bool × Option (List Row) :=
  match file with
  | none => (false, none)
  | some rows =>
      (true, some (rows.map (fun r =>
        if r.task = taskName ∧ (r.status = "Abandoned" ∨ r.status = "In Progress")
        then { r with status := newStatus } else r)))

/-- `log_task(task, start_time, end_time, status)` (src/focus.py:136-183).
When `status` is `In Progress` and today's log holds an `Abandoned` row for
`task`, it delegates to `update_task_status(task, "In Progress (Resumed)")`
and appends nothing; otherwise it appends one row (writing the header first
when the file did not exist). -/
def log_task (task : String) (startTime : ℚ) (endTime : Option ℚ) (status : String)
    (file : Option (List Row)) : Option (List Row) :=
  let updatingAbandoned : Bool :=
    status == "In Progress" &&
      match file with
      | none => false
      | some rows => rows.any (fun r => r.task == task && r.status == "Abandoned")
  if updatingAbandoned then
    (update_task_status task "In Progress (Resumed)" file).2
  else
    let dur := endTime.map (fun e => (e - startTime) / 60)
    let row : Row :=
      { task := task
        startTime := timeStr startTime
        endTime := match endTime with | some e => timeStr e | none => ""
        duration := durationField dur
        status := status }
    match file with
    | some rows => some (rows ++ [row])
    | none => some [row]

/-- Numeric value of a decimal digit, `none` otherwise. -/
def digitVal (c : Char) : Option Nat :=
  if c.isDigit then some (c.toNat - 48) else none

/-- Parse a non-empty run of decimal digits. -/
def parseDigits : List Char → Option Nat
  | [] => none
  | cs => cs.foldlM (fun acc c => (digitVal c).map (fun d => acc * 10 + d)) 0

/-- Python's `float(s)` restricted to the plain decimal forms the program
writes (`-`? digits (`.` digits)?): `none` models the `ValueError` branch. -/
def parseRat (s : String) : Option ℚ :=
  let cs := s.toList
  let (neg, body) := match cs with
    | '-' :: rest => (true, rest)
    | _ => (false, cs)
  let intPart := body.takeWhile (fun c => c ≠ '.')
  let rest := body.dropWhile (fun c => c ≠ '.')
  let mag : Option ℚ :=
    match rest with
    | [] => (parseDigits intPart).map (fun n => (n : ℚ))
    | _ :: fracPart =>
        match parseDigits intPart, parseDigits fracPart with
        | some i, some f => some ((i : ℚ) + (f : ℚ) / (10 : ℚ) ^ fracPart.length)
        | _, _ => none
  mag.map (fun m => if neg then -m else m)

/-! ## Statistics rollup (`update_statistics`, src/focus.py:216-313)

The rollup file is `Option (List (List String))`: `none` when
`statistics.csv` does not exist, otherwise the data rows after the (fixed)
header. -/

/-- The aggregate row written for one day (src/focus.py:256-298 fields). -/
def statsRowFor (parse : String → Option ℚ) (dayStr : String) (rows : List Row) :
    List String :=
  let completed := rows.filter (fun r => r.status == "Completed" && r.duration != "")
  let abandoned := rows.filter (fun r => r.status == "Abandoned" && r.duration != "")
  let totC := (completed.map (fun r => (parse r.duration).getD 0)).sum
  let totA := (abandoned.map (fun r => (parse r.duration).getD 0)).sum
  let nC := completed.length
  let nA := abandoned.length
  let avgC : ℚ := if 0 < nC then totC / nC else 0
  let avgA : ℚ := if 0 < nA then totA / nA else 0
  let rate : ℚ := if 0 < nC + nA then (nC : ℚ) / ((nC : ℚ) + (nA : ℚ)) * 100 else 0
  [dayStr, toString nC, fmtFixed 2 totC, fmtFixed 2 avgC,
   toString nA, fmtFixed 2 totA, fmtFixed 2 avgA, fmtFixed 1 rate]

/-- Replace the first row whose date cell (`row[0]`) equals `key` by
`newRow`; append `newRow` when no row matches (src/focus.py:272-298). -/
def upsert (key : String) (newRow : List String) : List (List String) → List (List String)
  | [] => [newRow]
  | r :: rs => if r.headD "" == key then newRow :: rs else r :: upsert key newRow rs

/-- One iteration of `update_statistics`' day loop (src/focus.py:222-313):
with no day file, or with no completed and no abandoned row carrying a
duration, the rollup is untouched; otherwise the day's aggregate row is
upserted and the rollup file is rewritten (so it exists afterwards). -/
def processDay (parse : String → Option ℚ) (dayStr : String)
    (dayFile : Option (List Row)) (stats : Option (List (List String))) :
    Option (List (List String)) :=
  match dayFile with
  | none => stats
  | some rows =>
      let completed := rows.filter (fun r => r.status == "Completed" && r.duration != "")
      let abandoned := rows.filter (fun r => r.status == "Abandoned" && r.duration != "")
      if completed.isEmpty && abandoned.isEmpty then stats
      else some (upsert dayStr (statsRowFor parse dayStr rows) (stats.getD []))

/-- `update_statistics()` (src/focus.py:216-313): processes yesterday then
today against the current rollup file contents. -/
def update_statistics (parse : String → Option ℚ) (yStr tStr : String)
    (yFile tFile : Option (List Row)) (stats : Option (List (List String))) :
    Option (List (List String)) :=
  processDay parse tStr tFile (processDay parse yStr yFile stats)

/-! ## Abandoned-task listing (`get_abandoned_tasks`, src/focus.py:185-214)

The month directory is modelled as the list of its CSV files' row lists, in
the iteration order of the source (filenames sorted in reverse). -/

/-- Scan one file, appending each `Abandoned` row whose task name is not
already present (src/focus.py:202-208). -/
def scanFile (f : List Row) (acc : List Row) : List Row :=
  f.foldl (fun a r =>
    if r.status == "Abandoned" && !(a.any (fun t => t.task == r.task))
    then a ++ [r] else a) acc

/-- The file loop of `get_abandoned_tasks` (src/focus.py:198-212): scan
files in order, stopping after the first file that brings the accumulator
to 10 or more rows. -/
def collectAbandoned : List (List Row) → List Row → List Row
  | [], acc => acc
  | f :: fs, acc =>
      let acc' := scanFile f acc
      if 10 ≤ acc'.length then acc' else collectAbandoned fs acc'

/-- `get_abandoned_tasks()` (src/focus.py:185-214): collect and truncate to
at most 10 rows. -/
def get_abandoned_tasks (files : List (List Row)) : List Row :=
  (collectAbandoned files []).take 10

/-! ## Day summary (`get_today_summary`, src/focus.py:375-443) -/

/-- The accumulator of the classification loop (src/focus.py:381-403). -/
structure SummaryAcc where
  completed : List Row
  abandoned : List Row
  inProgress : List Row
  totCompleted : ℚ
  totAbandoned : ℚ
deriving Repr

/-- One step of the classification loop (src/focus.py:389-403): the
`elif` chain matching on exact status strings and a non-empty duration
cell, with the `float` failure swallowed for the running totals. -/
def classifyStep (parse : String → Option ℚ) (includeIP : Bool)
    (a : SummaryAcc) (r : Row) : SummaryAcc :=
  if r.status == "Completed" && r.duration != "" then
    { a with completed := a.completed ++ [r]
             totCompleted := a.totCompleted + ((parse r.duration).getD 0) }
  else if r.status == "Abandoned" && r.duration != "" then
    { a with abandoned := a.abandoned ++ [r]
             totAbandoned := a.totAbandoned + ((parse r.duration).getD 0) }
  else if includeIP && r.status == "In Progress" then
    { a with inProgress := a.inProgress ++ [r] }
  else a

/-- Render a numbered task list with `float` durations
(src/focus.py:413-415 and 424-426).  The unguarded `float` raises
`ValueError` on a non-numeric duration cell, modelled by `Except.error`. -/
def renderDurLines (parse : String → Option ℚ) (tasks : List Row) :
    Except String String :=
  (List.range tasks.length).foldlM (fun acc i =>
    let t := tasks.getD i default
    match parse t.duration with
    | none => Except.error "ValueError"
    | some d =>
        Except.ok (acc ++ toString (i + 1) ++ ". " ++ t.task ++ " - " ++
          fmtFixed 1 d ++ " minutes\n")) ""

/-- `get_today_summary(include_in_progress=True)` (src/focus.py:375-443).
Returns `Except.error` when the rendering raises (the unguarded `float`
at src/focus.py:414 and :425). -/
def get_today_summary (parse : String → Option ℚ) (includeIP : Bool)
    (file : Option (List Row)) : Except String String :=
  match file with
  | none => Except.ok "No tasks recorded today."
  | some rows =>
    let a := rows.foldl (classifyStep parse includeIP) ⟨[], [], [], 0, 0⟩
    if a.completed.isEmpty && a.abandoned.isEmpty && a.inProgress.isEmpty then
      Except.ok "No tasks recorded today."
    else do
      let s₀ := "\n=== Today's Tasks ===\n"
      let s₁ ←
        if !a.completed.isEmpty then do
          let lines ← renderDurLines parse a.completed
          pure (s₀ ++ "COMPLETED:\n" ++ lines ++
            "\nCompleted: " ++ toString a.completed.length ++ " tasks, " ++
            fmtFixed 1 a.totCompleted ++ " minutes")
        else pure (s₀ ++ "No completed tasks yet.\n")
      let s₂ ←
        if !a.abandoned.isEmpty then do
          let lines ← renderDurLines parse a.abandoned
          pure (s₁ ++ "\n\nABANDONED:\n" ++ lines ++
            "\nAbandoned: " ++ toString a.abandoned.length ++ " tasks, " ++
            fmtFixed 1 a.totAbandoned ++ " minutes")
        else pure s₁
      let s₃ :=
        if includeIP && !a.inProgress.isEmpty then
          s₂ ++ "\n\nSTARTED BUT NOT COMPLETED:\n" ++
            String.join ((List.range a.inProgress.length).map (fun i =>
              let t := a.inProgress.getD i default
              toString (i + 1) ++ ". " ++ t.task ++ " - started at " ++
                t.startTime ++ "\n"))
        else s₂
      let s₄ :=
        if !a.completed.isEmpty || !a.abandoned.isEmpty then
          let total := a.completed.length + a.abandoned.length
          let rate : ℚ :=
            if 0 < total then (a.completed.length : ℚ) / (total : ℚ) * 100 else 0
          s₃ ++ "\n\nCompletion rate: " ++ fmtFixed 1 rate ++ "%"
        else s₃
      pure s₄

/-! ## Clearing today's log (`clear_today_tasks`, src/focus.py:1-17) -/

/-- Today's log file together with its sibling `.backup` file. -/
structure DayStore where
  log : Option (List Row)
  backup : Option (List Row)
deriving Repr, DecidableEq

/-- `initialize_day_log()` (src/focus.py:104-110): create a header-only
file when today's log does not exist. -/
def initialize_day_log (s : DayStore) : DayStore :=
  match s.log with
  | some _ => s
  | none => { s with log := some [] }

/-- `clear_today_tasks()` (src/focus.py:1-17): when today's log exists,
copy it over the `.backup` file, delete it, and recreate a header-only
log.  (The final `update_statistics()` call touches only the rollup file,
which is not part of `DayStore`.) -/
def clear_today_tasks (s : DayStore) : DayStore :=
  match s.log with
  | none => s
  | some rows => initialize_day_log { log := none, backup := some rows }

/-- The append path of `log_task` (src/focus.py:172-183), i.e. the Log
Store `append(row)` operation: append one row, writing the header first
when the file does not exist. -/
def appendRow (r : Row) (s : DayStore) : DayStore :=
  match s.log with
  | some rows => { s with log := some (rows ++ [r]) }
  | none => { s with log := some [r] }

/-! ## Session state and command dispatch (`handle_command`,
src/focus.py:500-585; main loop dispatch, src/focus.py:707-711) -/

/-- The tuple `(current_task, task_start_time, paused_time, is_paused)`
threaded through `handle_command`.  `pausedTime` is `none` before the
first pause (Python's `None`). -/
structure SessionState where
  currentTask : String
  taskStart : ℚ
  pausedTime : Option ℚ
  isPaused : Bool
deriving Repr, DecidableEq

/-- The values the dispatched command reads from its surroundings: the
clock at the head of the branch (`now`), the next task line and the clock
when it starts (`nextTask`, `nextNow`), the month directory scanned by the
`a` branch (`monthFiles`), and the parsed selection of the `a` branch
(`selection = none` models the `ValueError` branch). -/
structure Env where
  now : ℚ
  nextTask : String
  nextNow : ℚ
  monthFiles : List (List Row)
  selection : Option Int

/-- `handle_command(cmd, ...)` (src/focus.py:500-585) acting on the
session tuple and today's log.  The `t` branch (src/focus.py:571-583)
touches only the configuration file, so it leaves both unchanged, as does
a `c` or `x` received while paused (no branch of the `elif` chain fires).
`pausedTime.getD 0` totalises `now - paused_time`; the source only reaches
it with `paused_time` set. -/
def handle_command (cmd : String) (st : SessionState) (file : Option (List Row))
    (env : Env) : SessionState × Option (List Row) :=
  if cmd == "p" then
    if st.isPaused then
      ({ st with taskStart := st.taskStart + (env.now - st.pausedTime.getD 0),
                 isPaused := false }, file)
    else
      ({ st with pausedTime := some env.now, isPaused := true }, file)
  else if cmd == "c" && !st.isPaused then
    let file₁ := log_task st.currentTask st.taskStart (some env.now) "Completed" file
    let file₂ := log_task env.nextTask env.nextNow none "In Progress" file₁
    ({ st with currentTask := env.nextTask, taskStart := env.nextNow }, file₂)
  else if cmd == "x" && !st.isPaused then
    let file₁ := log_task st.currentTask st.taskStart (some env.now) "Abandoned" file
    let file₂ := log_task env.nextTask env.nextNow none "In Progress" file₁
    ({ st with currentTask := env.nextTask, taskStart := env.nextNow }, file₂)
  else if cmd == "a" then
    let abandoned := get_abandoned_tasks env.monthFiles
    if abandoned.isEmpty then (st, file)
    else
      match env.selection with
      | none => (st, file)
      | some n =>
          if 0 < n ∧ n ≤ (abandoned.length : Int) then
            let file₁ :=
              if st.currentTask != "" && !st.isPaused then
                log_task st.currentTask st.taskStart (some env.now) "Abandoned" file
              else file
            let tsk := (abandoned.getD ((n - 1).toNat) default).task
            let file₂ := log_task tsk env.nextNow none "In Progress" file₁
            ({ st with currentTask := tsk, taskStart := env.nextNow }, file₂)
          else (st, file)
  else (st, file)

/-- The completion duration printed and logged by the `c`/`x` branches
(src/focus.py:517, :532): a single subtraction, in minutes. -/
def duration_of (start e : ℚ) : ℚ := (e - start) / 60

/-- The main-loop variables a dispatched key can affect: the session
tuple, the reminder anchor `last_reminder_time`, and today's log. -/
structure LoopState where
  session : SessionState
  lastReminder : ℚ
  file : Option (List Row)
deriving Repr, DecidableEq

/-- The key dispatch of the main loop (src/focus.py:707-711): for a key in
`p, c, t, x, a` it runs `handle_command` and then unconditionally resets
`last_reminder_time` to the clock reading `now2` taken after the call;
other keys leave these variables unchanged (`l`/`h` only print). -/
def mainStep (cmd : String) (ls : LoopState) (env : Env) (now2 : ℚ) : LoopState :=
  if cmd == "p" || cmd == "c" || cmd == "t" || cmd == "x" || cmd == "a" then
    let (st, f) := handle_command cmd ls.session ls.file env
    { session := st, lastReminder := now2, file := f }
  else ls

/-! ## Claims -/

/-- Claim C1: starting a task `t` (`log_task` with status `In Progress` and
no end time) when today's log has an `Abandoned` row for `t` rewrites the
log in place, turning every row for `t` whose status is in
`{Abandoned, In Progress}` — in particular the prior `Abandoned` row —
into `In Progress (Resumed)`, appending nothing (the row count is
unchanged); with no `Abandoned` row for `t`, a fresh `In Progress` row
with empty end time and duration is appended instead. -/
theorem log_task_start_resumes_abandoned (t : String) (s : ℚ) (rows : List Row) :
    (log_task t s none "In Progress" (some rows) =
      if rows.any (fun r => r.task == t && r.status == "Abandoned")
      then some (rows.map (fun r =>
        if r.task = t ∧ (r.status = "Abandoned" ∨ r.status = "In Progress")
        then { r with status := "In Progress (Resumed)" } else r))
      else some (rows ++ [⟨t, timeStr s, "", "", "In Progress"⟩])) ∧
    ((log_task t s none "In Progress" (some rows)).getD []).length =
      (if rows.any (fun r => r.task == t && r.status == "Abandoned")
       then rows.length else rows.length + 1) := by
  by_cases h : rows.any (fun r => r.task == t && r.status == "Abandoned")
  · constructor
    · simp [log_task, update_task_status, h]
    · simp [log_task, update_task_status, h]
  · constructor
    · simp [log_task, durationField, h]
    · simp [log_task, durationField, h]

/-- Claim C2, counterexample: with two `Abandoned` rows for task `A`,
`update_task_status` rewrites both of them, not only the first; and with
no matching row at all it still returns `true`. -/
theorem update_task_status_not_first_only :
    (update_task_status "A" "Completed"
        (some [⟨"A", "", "", "", "Abandoned"⟩, ⟨"A", "", "", "", "Abandoned"⟩])).2 =
      some [⟨"A", "", "", "", "Completed"⟩, ⟨"A", "", "", "", "Completed"⟩] ∧
    (update_task_status "B" "Completed" (some [⟨"A", "", "", "", "Abandoned"⟩])).1 = true := by
  constructor
  · rfl
  · rfl

/-- Claim C2, amended: `update_task_status(task_name, new_status)` rewrites
every row whose task matches and whose current status lies in
`{Abandoned, In Progress}` (not only the first), leaves every other row
unchanged, and returns `true` exactly when today's log file exists,
whether or not any row was changed. -/
theorem update_task_status_rewrites_all (t ns : String) (rows : List Row) :
    (update_task_status t ns (some rows)).1 = true ∧
    update_task_status t ns none = (false, none) ∧
    ∃ l, (update_task_status t ns (some rows)).2 = some l ∧
      List.Forall₂ (fun r r' =>
        (r.task = t ∧ (r.status = "Abandoned" ∨ r.status = "In Progress") →
          r' = { r with status := ns }) ∧
        (¬(r.task = t ∧ (r.status = "Abandoned" ∨ r.status = "In Progress")) →
          r' = r)) rows l := by
  refine ⟨rfl, rfl, ?_⟩
  simp only [update_task_status]
  refine ⟨_, rfl, ?_⟩
  induction rows with
  | nil => exact List.Forall₂.nil
  | cons x xs ih =>
      simp only [List.map_cons]
      refine List.Forall₂.cons ⟨fun hx => ?_, fun hx => ?_⟩ ih
      · rw [if_pos hx]
      · rw [if_neg hx]

/-- Claim C3 (code bug): a task completed with zero elapsed time is logged
with a non-empty end time but an *empty* `Duration (minutes)` cell —
`f"{duration:.2f}" if duration else ""` treats the float `0.0` like
`None` — contradicting the invariant that every `Completed` or
`Abandoned` row carries a non-empty duration. -/
theorem completed_zero_duration_empty :
    log_task "report" 0 (some 0) "Completed" (some []) =
      some [⟨"report", "00:00:00", "00:00:00", "", "Completed"⟩] ∧
    ("00:00:00" : String) ≠ "" := by
  constructor
  · have h1 : ((0 : ℚ) - 0) / 60 = 0 := by norm_num
    simp only [log_task, durationField, timeStr, pad2]
    norm_num [h1]
    decide
  · decide

/-- Claim C4: pausing at `p` and resuming at `r` folds the pause into the
start time (`start + (r - p)`), so a later completion produces exactly the
log of a never-paused session started at `s + (r - p)`, and the reported
duration — the single subtraction `(end - adjusted start) / 60` — excludes
the paused interval. -/
theorem pause_resume_duration_neutral (task : String) (s p r e : ℚ) (hpr : p ≤ r)
    (file : Option (List Row)) (env : Env) :
    (handle_command "p"
        (handle_command "p" ⟨task, s, none, false⟩ file ⟨p, "", 0, [], none⟩).1
        file ⟨r, "", 0, [], none⟩).1 =
      ⟨task, s + (r - p), some p, false⟩ ∧
    (handle_command "c"
        (handle_command "p"
          (handle_command "p" ⟨task, s, none, false⟩ file ⟨p, "", 0, [], none⟩).1
          file ⟨r, "", 0, [], none⟩).1 file env).2 =
      (handle_command "c" ⟨task, s + (r - p), none, false⟩ file env).2 ∧
    duration_of (s + (r - p)) e = duration_of s e - (r - p) / 60 := by
  have h1 : (handle_command "p" ⟨task, s, none, false⟩ file ⟨p, "", 0, [], none⟩).1
      = ⟨task, s, some p, true⟩ := by
    simp [handle_command]
  have h2 : (handle_command "p" (⟨task, s, some p, true⟩ : SessionState) file
      ⟨r, "", 0, [], none⟩).1 = ⟨task, s + (r - p), some p, false⟩ := by
    simp [handle_command]
  rw [h1, h2]
  refine ⟨rfl, ?_, ?_⟩
  · simp [handle_command]
  · unfold duration_of
    ring

/-- Witness for `pause_resume_duration_neutral`: start at 0, pause at 1,
resume at 3, complete at 5. -/
theorem pause_resume_duration_neutral_witness :
    (1 : ℚ) ≤ 3 ∧
    (handle_command "p"
        (handle_command "p" ⟨"T", 0, none, false⟩ (some []) ⟨1, "", 0, [], none⟩).1
        (some []) ⟨3, "", 0, [], none⟩).1 =
      (⟨"T", (0 : ℚ) + (3 - 1), some 1, false⟩ : SessionState) ∧
    duration_of ((0 : ℚ) + (3 - 1)) 5 = duration_of 0 5 - (3 - 1) / 60 :=
  ⟨by norm_num,
   (pause_resume_duration_neutral "T" 0 1 3 5 (by norm_num) (some [])
     ⟨5, "n", 6, [], none⟩).1,
   (pause_resume_duration_neutral "T" 0 1 3 5 (by norm_num) (some [])
     ⟨5, "n", 6, [], none⟩).2.2⟩

/-- After upserting `r` at its own key `k`, `r` is the first `k`-keyed row. -/
theorem find?_upsert_self (k : String) (r : List String) (hr : r.headD "" = k)
    (l : List (List String)) :
    (upsert k r l).find? (fun x => x.headD "" == k) = some r := by
  have hrb : (r.headD "" == k) = true := by rw [hr]; exact beq_self_eq_true k
  induction l with
  | nil => exact List.find?_cons_of_pos (p := fun x : List String => x.headD "" == k) [] hrb
  | cons x xs ih =>
      show List.find? _ (if x.headD "" == k then r :: xs else x :: upsert k r xs) = some r
      by_cases hx : (x.headD "" == k) = true
      · rw [if_pos hx]
        exact List.find?_cons_of_pos (p := fun x : List String => x.headD "" == k) xs hrb
      · rw [if_neg hx,
          List.find?_cons_of_neg (p := fun x : List String => x.headD "" == k) _ hx]
        exact ih

/-- Upserting at a different key does not change which row `find?` sees at
key `k`. -/
theorem find?_upsert_ne (k k2 : String) (r2 : List String) (hk : k2 ≠ k)
    (hr : r2.headD "" = k2) (l : List (List String)) :
    (upsert k2 r2 l).find? (fun x => x.headD "" == k) =
      l.find? (fun x => x.headD "" == k) := by
  have hrb : ¬ (r2.headD "" == k) = true := by
    rw [hr, Bool.not_eq_true, beq_eq_false_iff_ne]
    exact hk
  induction l with
  | nil =>
      show List.find? _ [r2] = List.find? _ ([] : List (List String))
      rw [List.find?_cons_of_neg (p := fun x : List String => x.headD "" == k) _ hrb]
  | cons x xs ih =>
      show List.find? _ (if x.headD "" == k2 then r2 :: xs else x :: upsert k2 r2 xs) = _
      by_cases hx : (x.headD "" == k2) = true
      · rw [if_pos hx]
        have hxe : x.headD "" = k2 := by simpa using hx
        have hxk : ¬ (x.headD "" == k) = true := by
          rw [hxe, Bool.not_eq_true, beq_eq_false_iff_ne]
          exact hk
        rw [List.find?_cons_of_neg (p := fun x : List String => x.headD "" == k) _ hrb,
          List.find?_cons_of_neg (p := fun x : List String => x.headD "" == k) _ hxk]
      · rw [if_neg hx]
        by_cases hxk : (x.headD "" == k) = true
        · rw [List.find?_cons_of_pos (p := fun x : List String => x.headD "" == k) _ hxk,
            List.find?_cons_of_pos (p := fun x : List String => x.headD "" == k) _ hxk]
        · rw [List.find?_cons_of_neg (p := fun x : List String => x.headD "" == k) _ hxk,
            List.find?_cons_of_neg (p := fun x : List String => x.headD "" == k) _ hxk]
          exact ih

/-- Upserting the row that is already the first row at its key changes
nothing. -/
theorem upsert_of_find? (k : String) (r : List String) (l : List (List String))
    (h : l.find? (fun x => x.headD "" == k) = some r) : upsert k r l = l := by
  induction l with
  | nil => exact absurd h (by simp)
  | cons x xs ih =>
      show (if x.headD "" == k then r :: xs else x :: upsert k r xs) = x :: xs
      by_cases hx : (x.headD "" == k) = true
      · have hxr : x = r := by
          have h2 := h
          rw [List.find?_cons_of_pos (p := fun x : List String => x.headD "" == k) _ hx] at h2
          exact Option.some.inj h2
        rw [if_pos hx, hxr]
      · have h2 := h
        rw [List.find?_cons_of_neg (p := fun x : List String => x.headD "" == k) _ hx] at h2
        rw [if_neg hx, ih h2]

/-- `upsert` at a fixed key and row is idempotent. -/
theorem upsert_self_idem (k : String) (r : List String) (hr : r.headD "" = k)
    (l : List (List String)) : upsert k r (upsert k r l) = upsert k r l :=
  upsert_of_find? k r _ (find?_upsert_self k r hr l)

/-- Processing the same day twice against fixed day logs is the same as
processing it once. -/
theorem processDay_idem (parse : String → Option ℚ) (d : String)
    (f : Option (List Row)) (s : Option (List (List String))) :
    processDay parse d f (processDay parse d f s) = processDay parse d f s := by
  cases f with
  | none => rfl
  | some rows =>
      by_cases h :
        ((rows.filter (fun r => r.status == "Completed" && r.duration != "")).isEmpty
          && (rows.filter (fun r => r.status == "Abandoned" && r.duration != "")).isEmpty) = true
      · simp [processDay, h]
      · simp [processDay, h, upsert_self_idem d (statsRowFor parse d rows) rfl]

/-- Claim C5: with the day logs and the two dates fixed,
`update_statistics` is idempotent — running it twice leaves the rollup
file with exactly the contents of one run. -/
theorem update_statistics_idem (parse : String → Option ℚ) (y t : String) (hyt : y ≠ t)
    (yF tF : Option (List Row)) (stats : Option (List (List String))) :
    update_statistics parse y t yF tF (update_statistics parse y t yF tF stats) =
      update_statistics parse y t yF tF stats := by
  unfold update_statistics
  cases yF with
  | none => exact processDay_idem parse t tF (processDay parse y none stats)
  | some yrows =>
      by_cases hy :
        ((yrows.filter (fun r => r.status == "Completed" && r.duration != "")).isEmpty
          && (yrows.filter (fun r => r.status == "Abandoned" && r.duration != "")).isEmpty) = true
      · have hid : ∀ s, processDay parse y (some yrows) s = s := by
          intro s; simp [processDay, hy]
        rw [hid, hid]
        exact processDay_idem parse t tF stats
      · have hY : ∀ s, processDay parse y (some yrows) s =
            some (upsert y (statsRowFor parse y yrows) (s.getD [])) := by
          intro s; simp [processDay, hy]
        cases tF with
        | none =>
            have hidN : ∀ s, processDay parse t none s = s := fun _ => rfl
            simp only [hidN, hY, Option.getD_some]
            rw [upsert_self_idem y (statsRowFor parse y yrows) rfl]
        | some trows =>
            by_cases ht :
              ((trows.filter (fun r => r.status == "Completed" && r.duration != "")).isEmpty
                && (trows.filter (fun r => r.status == "Abandoned" && r.duration != "")).isEmpty) = true
            · have hidT : ∀ s, processDay parse t (some trows) s = s := by
                intro s; simp [processDay, ht]
              simp only [hidT, hY, Option.getD_some]
              rw [upsert_self_idem y (statsRowFor parse y yrows) rfl]
            · have hT : ∀ s, processDay parse t (some trows) s =
                  some (upsert t (statsRowFor parse t trows) (s.getD [])) := by
                intro s; simp [processDay, ht]
              simp only [hY, hT, Option.getD_some]
              have hfind :
                  (upsert t (statsRowFor parse t trows)
                      (upsert y (statsRowFor parse y yrows) (stats.getD []))).find?
                    (fun x => x.headD "" == y) = some (statsRowFor parse y yrows) := by
                rw [find?_upsert_ne y t (statsRowFor parse t trows) (Ne.symm hyt) rfl]
                exact find?_upsert_self y (statsRowFor parse y yrows) rfl _
              rw [upsert_of_find? y (statsRowFor parse y yrows) _ hfind]
              rw [upsert_self_idem t (statsRowFor parse t trows) rfl]

/-- Witness for `update_statistics_idem`: one completed task yesterday,
one abandoned task today, empty initial rollup. -/
theorem update_statistics_idem_witness :
    update_statistics parseRat "2026-10-11" "2026-10-12"
        (some [⟨"A", "09:00:00", "09:10:00", "10.00", "Completed"⟩])
        (some [⟨"B", "10:00:00", "10:05:00", "5.00", "Abandoned"⟩])
        (update_statistics parseRat "2026-10-11" "2026-10-12"
          (some [⟨"A", "09:00:00", "09:10:00", "10.00", "Completed"⟩])
          (some [⟨"B", "10:00:00", "10:05:00", "5.00", "Abandoned"⟩]) none) =
      update_statistics parseRat "2026-10-11" "2026-10-12"
        (some [⟨"A", "09:00:00", "09:10:00", "10.00", "Completed"⟩])
        (some [⟨"B", "10:00:00", "10:05:00", "5.00", "Abandoned"⟩]) none :=
  update_statistics_idem parseRat "2026-10-11" "2026-10-12" (by decide)
    (some [⟨"A", "09:00:00", "09:10:00", "10.00", "Completed"⟩])
    (some [⟨"B", "10:00:00", "10:05:00", "5.00", "Abandoned"⟩]) none

/-- Evaluation rule for `fmtFixed` on a non-negative argument whose
rounded scaling is known. -/
theorem fmtFixed_eval (prec : Nat) (q : ℚ) (m : Nat) (h0 : 0 ≤ q)
    (hm : ⌊q * (10 : ℚ) ^ prec + 1 / 2⌋ = (m : ℤ)) :
    fmtFixed prec q =
      "" ++ toString (m / 10 ^ prec) ++ "." ++ padZeros prec (toString (m % 10 ^ prec)) := by
  simp only [fmtFixed]
  rw [abs_of_nonneg h0, hm, if_neg (not_lt.mpr h0), Int.toNat_natCast]

/-- `0.00`, as formatted by the rollup writer. -/
theorem fmtFixed_two_zero : fmtFixed 2 (0 : ℚ) = "0.00" := by
  rw [fmtFixed_eval 2 0 0 le_rfl (by norm_num)]
  decide

/-- `100.0`, as formatted by the rollup writer. -/
theorem fmtFixed_one_hundred : fmtFixed 1 (100 : ℚ) = "100.0" := by
  rw [fmtFixed_eval 1 100 1000 (by norm_num) (by norm_num)]
  decide

/-- Claim C6 (code bug): for a `Completed` row whose non-empty duration
cell does not parse as a number, aggregation (`update_statistics`) indeed
skips the bad duration — the row is counted but contributes `0` minutes —
but `get_today_summary` does *not* keep the row in a listing: its
unguarded `float` (src/focus.py:414) raises `ValueError` while rendering,
so no listing is produced at all. -/
theorem malformed_duration_row :
    (get_today_summary parseRat true
        (some [⟨"T", "09:00:00", "09:10:00", "abc", "Completed"⟩])).isOk = false ∧
    update_statistics parseRat "2026-10-11" "2026-10-12" none
        (some [⟨"T", "09:00:00", "09:10:00", "abc", "Completed"⟩]) none =
      some [["2026-10-12", "1", "0.00", "0.00", "0", "0.00", "0.00", "100.0"]] := by
  have hp : parseRat "abc" = none := rfl
  constructor
  · decide
  · show processDay parseRat "2026-10-12"
        (some [⟨"T", "09:00:00", "09:10:00", "abc", "Completed"⟩]) none = _
    have hC : List.filter (fun r : Row => r.status == "Completed" && r.duration != "")
        [⟨"T", "09:00:00", "09:10:00", "abc", "Completed"⟩] =
        [⟨"T", "09:00:00", "09:10:00", "abc", "Completed"⟩] := by decide
    have hA : List.filter (fun r : Row => r.status == "Abandoned" && r.duration != "")
        [⟨"T", "09:00:00", "09:10:00", "abc", "Completed"⟩] = [] := by decide
    simp only [processDay, statsRowFor, hC, hA, List.isEmpty_cons, List.isEmpty_nil,
      Bool.false_and, Bool.false_eq_true, if_false, List.map_cons, List.map_nil, hp,
      Option.getD_none, List.sum_cons, List.sum_nil, add_zero, List.length_cons,
      List.length_nil, Option.getD, upsert]
    norm_num [fmtFixed_two_zero, fmtFixed_one_hundred]
    exact ⟨by decide, by decide⟩

/-- Rows produced by scanning one file come from the accumulator or from
the file. -/
theorem scanFile_mem (f : List Row) (acc : List Row) (r : Row)
    (h : r ∈ scanFile f acc) : r ∈ acc ∨ r ∈ f := by
  induction f generalizing acc with
  | nil => exact Or.inl h
  | cons x xs ih =>
      have h2 : r ∈ scanFile xs
          (if x.status == "Abandoned" && !(acc.any fun t => t.task == x.task)
           then acc ++ [x] else acc) := h
      rcases ih _ h2 with h1 | h1
      · by_cases hc : (x.status == "Abandoned" && !(acc.any fun t => t.task == x.task)) = true
        · rw [if_pos hc] at h1
          rcases List.mem_append.mp h1 with h3 | h3
          · exact Or.inl h3
          · have : r = x := by simpa using h3
            exact Or.inr (this ▸ List.mem_cons_self x xs)
        · rw [if_neg hc] at h1
          exact Or.inl h1
      · exact Or.inr (List.mem_cons_of_mem x h1)

/-- Scanning preserves the all-`Abandoned` invariant of the accumulator. -/
theorem scanFile_status (f : List Row) (acc : List Row)
    (hacc : ∀ r ∈ acc, r.status = "Abandoned") :
    ∀ r ∈ scanFile f acc, r.status = "Abandoned" := by
  induction f generalizing acc with
  | nil => exact hacc
  | cons x xs ih =>
      intro r hr
      have hr2 : r ∈ scanFile xs
          (if x.status == "Abandoned" && !(acc.any fun t => t.task == x.task)
           then acc ++ [x] else acc) := hr
      refine ih _ ?_ r hr2
      intro s hs
      by_cases hc : (x.status == "Abandoned" && !(acc.any fun t => t.task == x.task)) = true
      · rw [if_pos hc] at hs
        rcases List.mem_append.mp hs with h1 | h1
        · exact hacc s h1
        · have hsx : s = x := by simpa using h1
          have hx : x.status = "Abandoned" := by
            have := (Bool.and_eq_true _ _).mp hc
            simpa using this.1
          exact hsx ▸ hx
      · rw [if_neg hc] at hs
        exact hacc s hs

/-- Scanning preserves pairwise-distinct task names. -/
theorem scanFile_pairwise (f : List Row) (acc : List Row)
    (hacc : acc.Pairwise (fun a b => a.task ≠ b.task)) :
    (scanFile f acc).Pairwise (fun a b => a.task ≠ b.task) := by
  induction f generalizing acc with
  | nil => exact hacc
  | cons x xs ih =>
      show (scanFile xs
        (if x.status == "Abandoned" && !(acc.any fun t => t.task == x.task)
         then acc ++ [x] else acc)).Pairwise _
      refine ih _ ?_
      by_cases hc : (x.status == "Abandoned" && !(acc.any fun t => t.task == x.task)) = true
      · rw [if_pos hc]
        refine List.pairwise_append.mpr ⟨hacc, List.pairwise_singleton _ _, ?_⟩
        intro a ha b hb
        have hb' : b = x := by simpa using hb
        subst hb'
        have hno := ((Bool.and_eq_true _ _).mp hc).2
        have hall : ∀ t ∈ acc, ¬ (t.task == b.task) = true := by
          intro t ht hbt
          have : acc.any (fun t => t.task == b.task) = true :=
            List.any_eq_true.mpr ⟨t, ht, hbt⟩
          rw [this] at hno
          simp at hno
        intro heq
        exact hall a ha (by simp [heq])
      · rw [if_neg hc]
        exact hacc

/-- Rows produced by the file loop come from the accumulator or from one
of the files. -/
theorem collectAbandoned_mem (fs : List (List Row)) (acc : List Row) (r : Row)
    (h : r ∈ collectAbandoned fs acc) : r ∈ acc ∨ ∃ f ∈ fs, r ∈ f := by
  induction fs generalizing acc with
  | nil => exact Or.inl h
  | cons f fs ih =>
      by_cases hlen : 10 ≤ (scanFile f acc).length
      · have h2 : r ∈ scanFile f acc := by
          simpa [collectAbandoned, hlen] using h
        rcases scanFile_mem f acc r h2 with h1 | h1
        · exact Or.inl h1
        · exact Or.inr ⟨f, List.mem_cons_self f fs, h1⟩
      · have h2 : r ∈ collectAbandoned fs (scanFile f acc) := by
          simpa [collectAbandoned, hlen] using h
        rcases ih _ h2 with h1 | h1
        · rcases scanFile_mem f acc r h1 with h3 | h3
          · exact Or.inl h3
          · exact Or.inr ⟨f, List.mem_cons_self f fs, h3⟩
        · obtain ⟨g, hg, hrg⟩ := h1
          exact Or.inr ⟨g, List.mem_cons_of_mem f hg, hrg⟩

/-- The file loop preserves the all-`Abandoned` invariant. -/
theorem collectAbandoned_status (fs : List (List Row)) (acc : List Row)
    (hacc : ∀ r ∈ acc, r.status = "Abandoned") :
    ∀ r ∈ collectAbandoned fs acc, r.status = "Abandoned" := by
  induction fs generalizing acc with
  | nil => exact hacc
  | cons f fs ih =>
      intro r hr
      by_cases hlen : 10 ≤ (scanFile f acc).length
      · have h2 : r ∈ scanFile f acc := by
          simpa [collectAbandoned, hlen] using hr
        exact scanFile_status f acc hacc r h2
      · have h2 : r ∈ collectAbandoned fs (scanFile f acc) := by
          simpa [collectAbandoned, hlen] using hr
        exact ih _ (scanFile_status f acc hacc) r h2

/-- The file loop preserves pairwise-distinct task names. -/
theorem collectAbandoned_pairwise (fs : List (List Row)) (acc : List Row)
    (hacc : acc.Pairwise (fun a b => a.task ≠ b.task)) :
    (collectAbandoned fs acc).Pairwise (fun a b => a.task ≠ b.task) := by
  induction fs generalizing acc with
  | nil => exact hacc
  | cons f fs ih =>
      by_cases hlen : 10 ≤ (scanFile f acc).length
      · have : collectAbandoned (f :: fs) acc = scanFile f acc := by
          simp [collectAbandoned, hlen]
        rw [this]
        exact scanFile_pairwise f acc hacc
      · have : collectAbandoned (f :: fs) acc = collectAbandoned fs (scanFile f acc) := by
          simp [collectAbandoned, hlen]
        rw [this]
        exact ih _ (scanFile_pairwise f acc hacc)

/-- Claim C7: `get_abandoned_tasks` returns at most 10 rows, each with
status `Abandoned`, with pairwise-distinct task names, every one drawn
from one of the scanned month-directory files. -/
theorem get_abandoned_tasks_spec (files : List (List Row)) :
    (get_abandoned_tasks files).length ≤ 10 ∧
    (∀ r ∈ get_abandoned_tasks files, r.status = "Abandoned") ∧
    (get_abandoned_tasks files).Pairwise (fun a b => a.task ≠ b.task) ∧
    (∀ r ∈ get_abandoned_tasks files, ∃ f ∈ files, r ∈ f) := by
  refine ⟨List.length_take_le 10 _, ?_, ?_, ?_⟩
  · intro r hr
    exact collectAbandoned_status files [] (by simp) r (List.take_subset _ _ hr)
  · exact List.Pairwise.sublist (List.take_sublist _ _)
      (collectAbandoned_pairwise files [] List.Pairwise.nil)
  · intro r hr
    rcases collectAbandoned_mem files [] r (List.take_subset _ _ hr) with h | h
    · exact absurd h (List.not_mem_nil r)
    · exact h

/-- Witness for `get_abandoned_tasks_spec` on a one-file directory. -/
theorem get_abandoned_tasks_spec_witness :
    (⟨"A", "", "", "", "Abandoned"⟩ : Row).status = "Abandoned" ∧
    (∃ f ∈ [[(⟨"A", "", "", "", "Abandoned"⟩ : Row)]],
      (⟨"A", "", "", "", "Abandoned"⟩ : Row) ∈ f) :=
  ⟨(get_abandoned_tasks_spec [[⟨"A", "", "", "", "Abandoned"⟩]]).2.1 _ (by decide),
   (get_abandoned_tasks_spec [[⟨"A", "", "", "", "Abandoned"⟩]]).2.2.2 _ (by decide)⟩

/-- Claim C8, counterexample: with the task paused, dispatching `c`
changes neither the session tuple nor the day log — the command is
ignored — yet the main loop still resets the reminder anchor
(`last_reminder_time`) from 0 to the fresh clock reading 7, so the anchor
is not reset only by successful state-affecting commands. -/
theorem paused_complete_still_resets_anchor :
    (mainStep "c" ⟨⟨"T", 0, some 5, true⟩, 0, some []⟩
        ⟨6, "next", 6, [], none⟩ 7).session = ⟨"T", 0, some 5, true⟩ ∧
    (mainStep "c" ⟨⟨"T", 0, some 5, true⟩, 0, some []⟩
        ⟨6, "next", 6, [], none⟩ 7).file = some [] ∧
    (mainStep "c" ⟨⟨"T", 0, some 5, true⟩, 0, some []⟩
        ⟨6, "next", 6, [], none⟩ 7).lastReminder = 7 ∧
    ¬ ((7 : ℚ) = 0) := by
  refine ⟨rfl, rfl, rfl, by norm_num⟩

/-- Claim C8, amended: while paused, `c` and `x` are ignored —
`handle_command` leaves the session tuple and the day log unchanged — but
the main loop still resets the reminder anchor to the post-dispatch clock
reading for every dispatched key in `{p, c, t, x, a}`, whether or not the
command had any effect. -/
theorem paused_complete_abandon_ignored (st : SessionState) (h : st.isPaused = true)
    (file : Option (List Row)) (env : Env) (a now2 : ℚ) (cmd : String)
    (hcmd : cmd = "c" ∨ cmd = "x") :
    handle_command cmd st file env = (st, file) ∧
    mainStep cmd ⟨st, a, file⟩ env now2 = ⟨st, now2, file⟩ := by
  rcases hcmd with hc | hc <;> subst hc <;>
    constructor <;> simp [handle_command, mainStep, h]

/-- Witness for `paused_complete_abandon_ignored`: a paused session hit
with `c`. -/
theorem paused_complete_abandon_ignored_witness :
    handle_command "c" ⟨"T", 0, some 5, true⟩ (some []) ⟨6, "n", 6, [], none⟩ =
      (⟨"T", 0, some 5, true⟩, some []) ∧
    mainStep "c" ⟨⟨"T", 0, some 5, true⟩, 0, some []⟩ ⟨6, "n", 6, [], none⟩ 7 =
      ⟨⟨"T", 0, some 5, true⟩, 7, some []⟩ :=
  paused_complete_abandon_ignored ⟨"T", 0, some 5, true⟩ rfl (some [])
    ⟨6, "n", 6, [], none⟩ 0 7 "c" (Or.inl rfl)

/-- Folding the Log Store append over a store with an existing log appends
all the rows in order. -/
theorem foldl_appendRow (new : List Row) (acc : List Row) (b : Option (List Row)) :
    new.foldl (fun st r => appendRow r st) ⟨some acc, b⟩ =
      ⟨some (acc ++ new), b⟩ := by
  induction new generalizing acc with
  | nil => simp
  | cons x xs ih =>
      show xs.foldl (fun st r => appendRow r st) ⟨some (acc ++ [x]), b⟩ = _
      rw [ih (acc ++ [x])]
      simp

/-- Claim C9: when today's log exists, `clear_today_tasks` copies it to
the sibling backup (overwriting any prior backup), removes it and
recreates a header-only log; afterwards any sequence of appends yields a
log holding exactly those appended rows (after the header), with the
backup untouched. -/
theorem clear_then_appends (rows : List Row) (backup : Option (List Row))
    (new : List Row) :
    (clear_today_tasks ⟨some rows, backup⟩).backup = some rows ∧
    (clear_today_tasks ⟨some rows, backup⟩).log = some [] ∧
    (new.foldl (fun st r => appendRow r st) (clear_today_tasks ⟨some rows, backup⟩)).log =
      some new ∧
    (new.foldl (fun st r => appendRow r st) (clear_today_tasks ⟨some rows, backup⟩)).backup =
      some rows := by
  have hclear : clear_today_tasks ⟨some rows, backup⟩ =
      (⟨some [], some rows⟩ : DayStore) := rfl
  rw [hclear, foldl_appendRow new [] (some rows)]
  exact ⟨rfl, rfl, by simp, rfl⟩

/-- The classification loop of `get_today_summary` ignores rows with
status `In Progress (Resumed)` and finished rows with an empty duration
cell. -/
theorem classify_excluded (parse : String → Option ℚ) (rows : List Row)
    (h : ∀ r ∈ rows, r.status = "In Progress (Resumed)" ∨
          ((r.status = "Completed" ∨ r.status = "Abandoned") ∧ r.duration = "")) :
    ∀ a : SummaryAcc, rows.foldl (classifyStep parse true) a = a := by
  induction rows with
  | nil => intro a; rfl
  | cons x xs ih =>
      intro a
      have hx := h x (List.mem_cons_self x xs)
      have hstep : classifyStep parse true a x = a := by
        rcases hx with h1 | ⟨h2, h3⟩
        · simp [classifyStep, h1]
        · rcases h2 with h2 | h2 <;> simp [classifyStep, h2, h3]
      show xs.foldl (classifyStep parse true) (classifyStep parse true a x) = a
      rw [hstep]
      exact ih (fun r hr => h r (List.mem_cons_of_mem x hr)) a

/-- Claim C10: `get_today_summary` places a row in a section only for
status exactly `Completed`/`Abandoned` with a non-empty duration cell, or
exactly `In Progress`; a log consisting solely of `In Progress (Resumed)`
rows and finished rows with empty durations yields
"No tasks recorded today." even though the log contains task rows. -/
theorem excluded_rows_empty_summary (parse : String → Option ℚ) (rows : List Row)
    (h : ∀ r ∈ rows, r.status = "In Progress (Resumed)" ∨
          ((r.status = "Completed" ∨ r.status = "Abandoned") ∧ r.duration = "")) :
    get_today_summary parse true (some rows) = Except.ok "No tasks recorded today." := by
  show (let a := rows.foldl (classifyStep parse true) ⟨[], [], [], 0, 0⟩
    if a.completed.isEmpty && a.abandoned.isEmpty && a.inProgress.isEmpty then
      Except.ok "No tasks recorded today."
    else _) = _
  rw [classify_excluded parse rows h ⟨[], [], [], 0, 0⟩]
  rfl

/-- Witness for `excluded_rows_empty_summary`: a resumed row and a
zero-duration completed row produce the empty-summary message. -/
theorem excluded_rows_empty_summary_witness :
    get_today_summary parseRat true
      (some [⟨"A", "09:00:00", "", "", "In Progress (Resumed)"⟩,
             ⟨"B", "09:00:00", "09:00:00", "", "Completed"⟩]) =
      Except.ok "No tasks recorded today." :=
  excluded_rows_empty_summary parseRat
    [⟨"A", "09:00:00", "", "", "In Progress (Resumed)"⟩,
     ⟨"B", "09:00:00", "09:00:00", "", "Completed"⟩] (by decide)

end FocusTracker
